import Mathlib

/-!
Shallow embedding of the subscan subdomain scanner (src/main.rs, src/scanner.rs,
src/cli.rs) and verification of its specification claims.

Strings are modelled as lists of characters (`Str`); the DNS client library
(hickory) is an external collaborator and is modelled as two oracle parameters:
a name parser `np : Str -> Option Name` (hickory Name::from_str) and a query
oracle `oracle : SockAddr -> Nat -> Name -> DnsResult` (UDP connect + query with
a timeout, errors of every kind collapsed into `DnsResult.err`).
-/

/-- Character-list strings; the embedding of Rust String / str. -/
abbrev Str := List Char

/-- Character data of a Lean string literal, used to write concrete inputs. -/
def str (s : String) : Str := s.data

/-- ASCII whitespace test, embedding the whitespace class used by str::trim
(restricted to the ASCII characters that can occur in resolver files). -/
def isWhite (c : Char) : Bool := c == ' ' || c == '\t' || c == '\n' || c == '\r'

/-- Embedding of str::trim: drop whitespace from both ends. -/
def trimChars (l : Str) : Str :=
  ((l.dropWhile isWhite).reverse.dropWhile isWhite).reverse

/-- Split a character list at every occurrence of the separator `c`,
as Rust's parsers split socket-address strings at the colon and dots. -/
def splitOnChar (c : Char) : Str → List Str
  | [] => [[]]
  | x :: xs =>
    if x = c then [] :: splitOnChar c xs
    else
      match splitOnChar c xs with
      | [] => [[x]]
      | y :: ys => (x :: y) :: ys

/-- Decimal digit test. -/
def isDigitChar (c : Char) : Bool := '0' ≤ c && c ≤ '9'

/-- Value of a decimal digit string. -/
def digitsToNat (l : Str) : Nat := l.foldl (fun a c => a * 10 + (c.toNat - 48)) 0

/-- Embedding of one IPv4 octet of Rust's Ipv4Addr parser: a non-empty decimal
string without a redundant leading zero, with value at most 255. -/
def parseOctet (l : Str) : Option Nat :=
  if l ≠ [] ∧ l.all isDigitChar ∧ (l.length = 1 ∨ l.head? ≠ some '0') ∧
      digitsToNat l ≤ 255 then
    some (digitsToNat l)
  else none

/-- Embedding of Rust's Ipv4Addr FromStr: four dot-separated octets. -/
def parseIPv4 (l : Str) : Option (List Nat) :=
  match splitOnChar '.' l with
  | [a, b, c, d] =>
    match parseOctet a, parseOctet b, parseOctet c, parseOctet d with
    | some x, some y, some z, some w => some [x, y, z, w]
    | _, _, _, _ => none
  | _ => none

/-- Embedding of the port component of Rust's SocketAddr FromStr: at most five
decimal digits with value at most 65535 (leading zeros allowed). -/
def parsePort (l : Str) : Option Nat :=
  if l ≠ [] ∧ l.all isDigitChar ∧ l.length ≤ 5 ∧ digitsToNat l ≤ 65535 then
    some (digitsToNat l)
  else none

/-- A validated socket address (host portion plus port), the embedding of
std::net::SocketAddr as the scanner uses it. -/
structure SockAddr where
  ip : List Nat
  port : Nat
deriving DecidableEq

/-- Embedding of SocketAddr::from_str for the IPv4 form host:port
(the bracketed IPv6 form is not modelled; no claim depends on it). -/
def parseSocketAddr (l : Str) : Option SockAddr :=
  match splitOnChar ':' l with
  | [hst, prt] =>
    match parseIPv4 hst with
    | none => none
    | some ip =>
      match parsePort prt with
      | none => none
      | some p => some (SockAddr.mk ip p)
  | _ => none

/-- Embedding of the per-line resolver parse in SubdomainScanner::new
(src/scanner.rs lines 38-44): a line containing a colon is parsed as written,
otherwise the trimmed line is parsed with ":53" appended. -/
def readResolverLine (line : Str) : Option SockAddr :=
  if line.contains ':' then parseSocketAddr line
  else parseSocketAddr (trimChars line ++ str ":53")

/-- Embedding of the SubdomainScanner struct (src/scanner.rs lines 21-27);
the timeout is kept in whole seconds as Duration::from_secs receives it. -/
structure SubdomainScanner where
  resolvers : List SockAddr
  domain : Str
  subdomains : List Str
  timeout : Nat
deriving DecidableEq

/-- Embedding of SubdomainScanner::new (src/scanner.rs lines 30-62).  File
reading is abstracted to the lists of lines each file contains; lines failing
the resolver parse are dropped, blank subdomain lines are dropped, and the only
error is an empty parsed resolver list. -/
def SubdomainScanner.new (resolverLines subdomainLines : List Str)
    (domain : Str) (timeout_secs : Nat) : Except String SubdomainScanner :=
  let resolvers := resolverLines.filterMap readResolverLine
  let subdomains := subdomainLines.filter (fun l => !(trimChars l).isEmpty)
  if resolvers.isEmpty then Except.error "No valid resolvers found"
  else Except.ok (SubdomainScanner.mk resolvers domain subdomains timeout_secs)

/-- One DNS answer record; its content is opaque to the scanner. -/
structure Answer where
  rdata : Nat
deriving DecidableEq

/-- Failure modes of one sub-query: connect failure, query failure, timeout.
The scanner collapses them all with .ok()?. -/
inductive QueryError
  | connectFailed
  | queryFailed
  | timeout
deriving DecidableEq

/-- Result of one DNS query issued by the external client. -/
inductive DnsResult
  | ok (answers : List Answer)
  | err (e : QueryError)
deriving DecidableEq

/-- A parsed DNS name (hickory Name), kept abstract as its label list. -/
abbrev Name := List Str

/-- Embedding of the body of one spawned sub-query task (src/scanner.rs lines
82-94): any connect or query error yields a negative outcome; a successful
response yields the full domain exactly when its answer list is non-empty. -/
def subQueryOutcome (qr : DnsResult) (full_domain : Str) : Option Str :=
  match qr with
  | .ok answers => if answers.isEmpty then none else some full_domain
  | .err _ => none

/-- Embedding of SubdomainScanner::try_resolvers (src/scanner.rs lines 65-109):
parse the dotted name (returning None on failure before any query), then join
the spawned sub-queries in spawn order and return the first positive result.
`np` is the external name parser and `oracle` the external query capability. -/
def tryResolvers (np : Str → Option Name) (oracle : SockAddr → Nat → Name → DnsResult)
    (resolvers : List SockAddr) (timeout : Nat) (full_domain : Str) : Option Str :=
  match np (full_domain ++ ['.']) with
  | none => none
  | some nm => resolvers.findSome? (fun r => subQueryOutcome (oracle r timeout nm) full_domain)

/-- The sub-queries try_resolvers launches: none at all when the name fails to
parse (src/scanner.rs line 70 returns before the spawn loop), otherwise one per
resolver (src/scanner.rs lines 74-99). -/
def tryResolversQueries (np : Str → Option Name) (resolvers : List SockAddr)
    (full_domain : Str) : List (SockAddr × Name) :=
  match np (full_domain ++ ['.']) with
  | none => []
  | some nm => resolvers.map (fun r => (r, nm))

/-- Embedding of format!("{}.{}", subdomain, domain) (src/scanner.rs line 125). -/
def fullDomain (sub dom : Str) : Str := sub ++ '.' :: dom

/-- The JSON report scan builds (src/scanner.rs lines 140-147). -/
structure Report where
  target : Str
  subdomain : List Str
  total_scanned : Nat
  resolvers_used : Nat
deriving DecidableEq

/-- Embedding of SubdomainScanner::scan (src/scanner.rs lines 112-148): each
candidate is raced with try_resolvers and a positive race sends exactly one
name on the channel.  The mpsc arrival order is abstracted to candidate order;
every claim proved about the report concerns lengths, counts and membership,
which are unaffected by the interleaving of channel sends. -/
def SubdomainScanner.scanModel (sc : SubdomainScanner) (np : Str → Option Name)
    (oracle : SockAddr → Nat → Name → DnsResult) : Report :=
  let found := sc.subdomains.filterMap
    (fun sub => tryResolvers np oracle sc.resolvers sc.timeout (fullDomain sub sc.domain))
  Report.mk sc.domain found sc.subdomains.length sc.resolvers.length

/-- The number of permits of the semaphore scan creates (src/scanner.rs line
114, Semaphore::new(1000000)); it ignores the scanner configuration because the
source hardcodes the constant. -/
def scanPermitLimit (_sc : SubdomainScanner) : Nat := 1000000

/-- Timed view of the join loop of try_resolvers (src/scanner.rs lines
101-106).  Each spawned sub-query is a pair of its completion time and its
result; the loop awaits handles in spawn order, so its clock upon reaching a
handle is the maximum of the completion times seen so far, and the cancel
signal (cancel_tx.send(true), line 103) is sent at the clock value at which
the first positive result is observed. -/
def raceCancelTimeAux (clock : Nat) : List (Nat × Option Str) → Option Nat
  | [] => none
  | (t, r) :: rest =>
    match r with
    | some _ => some (Nat.max clock t)
    | none => raceCancelTimeAux (Nat.max clock t) rest

/-- Time at which try_resolvers sends its cancellation signal, if ever. -/
def raceCancelTime (subs : List (Nat × Option Str)) : Option Nat :=
  raceCancelTimeAux 0 subs

/-- Value returned by the join loop: the first positive result in spawn
order (src/scanner.rs lines 101-108). -/
def raceJoinResult (subs : List (Nat × Option Str)) : Option Str :=
  subs.findSome? (fun p => p.2)

/-- Modelled from the spec: the earliest time at which any sub-query yields a
positive answer, which is when the spec says cancellation is signalled
("as soon as any sub-query yields a positive answer"). -/
def firstPositiveTime (subs : List (Nat × Option Str)) : Option Nat :=
  (subs.filterMap (fun p => match p.2 with | some _ => some p.1 | none => none)).min?

/-- State of the admission gate of scan: how many candidate tasks have been
admitted (permit acquired and task spawned, src/scanner.rs lines 117-129) and
how many have completed (task finished, dropping its permit, line 124). -/
structure GovState where
  admitted : Nat
  completed : Nat
deriving DecidableEq

/-- One scheduler step of the admission discipline of scan: admission acquires
a semaphore permit and is possible only while fewer than `limit` jobs are
outstanding; completion finishes one outstanding job and releases its permit. -/
inductive GovStep (limit : Nat) : GovState → GovState → Prop
  | enter (s : GovState) (h : s.admitted - s.completed < limit) :
      GovStep limit s (GovState.mk (s.admitted + 1) s.completed)
  | complete (s : GovState) (h : s.completed < s.admitted) :
      GovStep limit s (GovState.mk s.admitted (s.completed + 1))

/-- States reachable from the start of scan (no job admitted or completed). -/
inductive GovReach (limit : Nat) : GovState → Prop
  | start : GovReach limit (GovState.mk 0 0)
  | step (s s' : GovState) : GovReach limit s → GovStep limit s s' → GovReach limit s'

/-- Modelled from the spec: positivity of one query outcome — a successful
query with a non-empty answer set ("a non-empty AnswerSet is treated as
positive, an empty AnswerSet or any QueryError ... is treated as negative"). -/
def specPositive (qr : DnsResult) : Bool :=
  match qr with
  | .ok answers => !answers.isEmpty
  | .err _ => false

/-- Modelled from the spec: the port a resolver line asks for — the explicit
port written after the colon when there is one, the default 53 otherwise. -/
def resolverPortSpec (line : Str) : Option Nat :=
  if line.contains ':' then
    match splitOnChar ':' line with
    | [_, prt] => parsePort prt
    | _ => none
  else some 53

/-- First stated property check on a tiny concrete run, kept as a sanity
example of the executable model. -/
example :
    (SubdomainScanner.scanModel
      (SubdomainScanner.mk [SockAddr.mk [1, 1, 1, 1] 53] (str "ex.com") [str "www"] 2)
      (fun l => some [l]) (fun _ _ _ => DnsResult.ok [Answer.mk 0])).subdomain
      = [str "www.ex.com"] := by decide

/-- A positive sub-query outcome always carries the full domain it was given. -/
lemma subQueryOutcome_eq_some {qr : DnsResult} {fd x : Str}
    (h : subQueryOutcome qr fd = some x) : x = fd := by
  cases qr with
  | ok answers =>
    unfold subQueryOutcome at h
    by_cases he : answers.isEmpty <;> simp [he] at h
    exact h.symm
  | err e => simp [subQueryOutcome] at h

/-- A positive race always returns the full domain it was racing. -/
lemma tryResolvers_eq_some {np : Str → Option Name}
    {oracle : SockAddr → Nat → Name → DnsResult} {resolvers : List SockAddr}
    {timeout : Nat} {fd x : Str}
    (h : tryResolvers np oracle resolvers timeout fd = some x) : x = fd := by
  unfold tryResolvers at h
  cases hnp : np (fd ++ ['.']) with
  | none => rw [hnp] at h; exact absurd h (by simp)
  | some nm =>
    rw [hnp] at h
    obtain ⟨r, _, hr⟩ := List.exists_of_findSome?_eq_some h
    exact subQueryOutcome_eq_some hr

/-- Composing a full domain from a candidate and a fixed base domain is
injective in the candidate. -/
lemma fullDomain_inj {a b d : Str} (h : fullDomain a d = fullDomain b d) : a = b := by
  unfold fullDomain at h
  have hlen : a.length = b.length := by
    have := congrArg List.length h
    simp at this
    omega
  exact (List.append_inj h hlen).1

/-- Membership in the resolved list of the scan model, unfolded to the
candidate whose race produced the entry. -/
lemma mem_scanModel_subdomain {np : Str → Option Name}
    {oracle : SockAddr → Nat → Name → DnsResult} {sc : SubdomainScanner} {x : Str} :
    x ∈ (sc.scanModel np oracle).subdomain ↔
      ∃ c ∈ sc.subdomains,
        tryResolvers np oracle sc.resolvers sc.timeout (fullDomain c sc.domain) = some x := by
  unfold SubdomainScanner.scanModel
  exact List.mem_filterMap

/-- A candidate whose race is negative never appears in the resolved list. -/
lemma not_mem_scanModel_of_race_none {np : Str → Option Name}
    {oracle : SockAddr → Nat → Name → DnsResult} {sc : SubdomainScanner} {s : Str}
    (h : tryResolvers np oracle sc.resolvers sc.timeout (fullDomain s sc.domain) = none) :
    fullDomain s sc.domain ∉ (sc.scanModel np oracle).subdomain := by
  intro hx
  obtain ⟨c, _, hc⟩ := mem_scanModel_subdomain.mp hx
  have hcd : fullDomain s sc.domain = fullDomain c sc.domain :=
    tryResolvers_eq_some hc
  have : c = s := (fullDomain_inj hcd).symm
  rw [this] at hc
  rw [h] at hc
  exact Option.noConfusion hc

/-- Occurrence count of one candidate's full domain in the resolved list: the
candidate's input multiplicity when its race is positive, zero otherwise. -/
lemma count_scanModel_subdomain (np : Str → Option Name)
    (oracle : SockAddr → Nat → Name → DnsResult) (rs : List SockAddr)
    (t : Nat) (d : Str) (subs : List Str) (s : Str) :
    List.count (fullDomain s d)
      (subs.filterMap (fun c => tryResolvers np oracle rs t (fullDomain c d))) =
    if (tryResolvers np oracle rs t (fullDomain s d)).isSome
    then List.count s subs else 0 := by
  induction subs with
  | nil => by_cases h : (tryResolvers np oracle rs t (fullDomain s d)).isSome <;> simp [h]
  | cons c cs ih =>
    rw [List.filterMap_cons]
    cases hc : tryResolvers np oracle rs t (fullDomain c d) with
    | none =>
      by_cases hcs : c = s
      · subst hcs
        simp only [hc, Option.isSome_none, Bool.false_eq_true, if_false] at ih ⊢
        rw [ih]
      · rw [List.count_cons]
        simp only [beq_iff_eq, hcs, if_false, Nat.add_zero]
        exact ih
    | some x =>
      have hx : x = fullDomain c d := tryResolvers_eq_some hc
      subst hx
      rw [List.count_cons, List.count_cons, ih]
      by_cases hcs : c = s
      · subst hcs
        simp only [hc, Option.isSome_some, if_true, beq_self_eq_true]
      · have hfd : (fullDomain c d == fullDomain s d) = false := by
          simp only [beq_eq_false_iff_ne, ne_eq]
          intro hcon
          exact hcs (fullDomain_inj hcon)
        simp only [hfd, beq_iff_eq, hcs, if_false, Bool.false_eq_true, Nat.add_zero]

/-- splitOnChar never returns the empty list of parts. -/
lemma splitOnChar_ne_nil (c : Char) (l : Str) : splitOnChar c l ≠ [] := by
  cases l with
  | nil => simp [splitOnChar]
  | cons x xs =>
    unfold splitOnChar
    by_cases hx : x = c
    · simp [hx]
    · simp only [hx, if_false]
      cases splitOnChar c xs <;> simp

/-- A list without the separator splits into itself alone. -/
lemma splitOnChar_of_not_mem {c : Char} {l : Str} (h : c ∉ l) :
    splitOnChar c l = [l] := by
  induction l with
  | nil => rfl
  | cons x xs ih =>
    have hx : ¬x = c := fun hc => h (hc ▸ List.mem_cons_self x xs)
    have hxs : c ∉ xs := fun hc => h (List.mem_cons_of_mem x hc)
    unfold splitOnChar
    rw [if_neg hx, ih hxs]

/-- Splitting a list at its first separator occurrence peels off the
separator-free head. -/
lemma splitOnChar_append {c : Char} {t : Str} (r : Str) (h : c ∉ t) :
    splitOnChar c (t ++ c :: r) = t :: splitOnChar c r := by
  induction t with
  | nil => simp [splitOnChar]
  | cons x xs ih =>
    have hx : ¬x = c := fun hc => h (hc ▸ List.mem_cons_self x xs)
    have hxs : c ∉ xs := fun hc => h (List.mem_cons_of_mem x hc)
    show splitOnChar c (x :: (xs ++ c :: r)) = (x :: xs) :: splitOnChar c r
    rw [splitOnChar, if_neg hx, ih hxs]

/-- In a duplicate-free list every element occurs at most once. -/
lemma count_le_one_of_nodup {l : List Str} (h : l.Nodup) (a : Str) :
    List.count a l ≤ 1 := by
  induction l with
  | nil => simp
  | cons x xs ih =>
    rw [List.nodup_cons] at h
    rw [List.count_cons]
    by_cases hxa : x = a
    · subst hxa
      have hz : List.count x xs = 0 := by
        rw [List.count_eq_zero]
        exact h.1
      simp [hz]
    · have : (x == a) = false := by simp [hxa]
      simp only [this, Bool.false_eq_true, if_false, Nat.add_zero]
      exact ih h.2

/-- Characters of the trimmed line come from the line. -/
lemma mem_of_mem_trimChars {x : Char} {l : Str} (h : x ∈ trimChars l) : x ∈ l := by
  unfold trimChars at h
  rw [List.mem_reverse] at h
  have h1 := (List.dropWhile_sublist isWhite).mem h
  rw [List.mem_reverse] at h1
  exact (List.dropWhile_sublist isWhite).mem h1

/-- A successfully parsed socket address splits its line at the colon and
takes its port from the part after the colon. -/
lemma parseSocketAddr_port {l : Str} {a : SockAddr}
    (h : parseSocketAddr l = some a) :
    ∃ hst prt, splitOnChar ':' l = [hst, prt] ∧ parsePort prt = some a.port := by
  unfold parseSocketAddr at h
  cases hsp : splitOnChar ':' l with
  | nil => rw [hsp] at h; simp at h
  | cons p0 ps =>
    cases ps with
    | nil => rw [hsp] at h; simp at h
    | cons p1 ps2 =>
      cases ps2 with
      | cons q qs => rw [hsp] at h; simp at h
      | nil =>
        rw [hsp] at h
        have h2 : (match parseIPv4 p0 with
            | none => none
            | some ip =>
              match parsePort p1 with
              | none => none
              | some p => some (SockAddr.mk ip p)) = some a := h
        refine ⟨p0, p1, by simp [hsp], ?_⟩
        cases hip : parseIPv4 p0 with
        | none => rw [hip] at h2; simp at h2
        | some ip =>
          rw [hip] at h2
          cases hpt : parsePort p1 with
          | none => rw [hpt] at h2; simp at h2
          | some pt =>
            rw [hpt] at h2
            simp only [Option.some.injEq] at h2
            subst h2
            rfl

/-- The join loop's cancellation time over a prefix of negative sub-queries:
the clock accumulates the maximum of the completion times up to and including
the first positive handle. -/
lemma raceCancelTimeAux_split (post : List (Nat × Option Str)) (t : Nat) (v : Str) :
    ∀ (pre : List (Nat × Option Str)) (clock : Nat), (∀ p ∈ pre, p.2 = none) →
      raceCancelTimeAux clock (pre ++ (t, some v) :: post) =
        some (List.foldl Nat.max clock (pre.map Prod.fst ++ [t])) := by
  intro pre
  induction pre with
  | nil => intro clock _; rfl
  | cons p pre' ih =>
    intro clock hall
    obtain ⟨t0, r0⟩ := p
    have hr0 : r0 = none := hall (t0, r0) (List.mem_cons_self _ _)
    subst hr0
    show raceCancelTimeAux (Nat.max clock t0) (pre' ++ (t, some v) :: post) = _
    rw [ih (Nat.max clock t0) (fun q hq => hall q (List.mem_cons_of_mem _ hq))]
    rfl

/-- The join loop returns the payload of the first positive handle when all
earlier handles are negative. -/
lemma raceJoinResult_split (pre post : List (Nat × Option Str)) (t : Nat) (v : Str)
    (hall : ∀ p ∈ pre, p.2 = none) :
    raceJoinResult (pre ++ (t, some v) :: post) = some v := by
  induction pre with
  | nil => rfl
  | cons p pre' ih =>
    have hp : p.2 = none := hall p (List.mem_cons_self _ _)
    show List.findSome? (fun q => q.2) (p :: (pre' ++ (t, some v) :: post)) = some v
    rw [List.findSome?_cons]
    rw [hp]
    exact ih (fun q hq => hall q (List.mem_cons_of_mem _ hq))

/-- Claim C1, counterexample: with two sub-queries, the first (in spawn order)
still pending until time 10 and negative, the second answering positively at
time 1, the code only signals cancellation at time 10 (when the sequential
join loop reaches the positive handle), not at time 1 when the positive answer
returned; so cancellation is not signalled as soon as a sub-query is positive. -/
theorem c1_counterexample :
    raceCancelTime [(10, none), (1, some (str "www.example.com"))] = some 10 ∧
    firstPositiveTime [(10, none), (1, some (str "www.example.com"))] = some 1 ∧
    raceCancelTime [(10, none), (1, some (str "www.example.com"))] ≠
      firstPositiveTime [(10, none), (1, some (str "www.example.com"))] := by
  refine ⟨rfl, rfl, ?_⟩
  decide

/-- Claim C1 (amended): the race joins its sub-queries in spawn order; when the
first positive result in spawn order is observed — at the maximum of the
completion times of that handle and of every earlier-spawned handle, possibly
later than the positive answer itself — it signals cancellation to the
still-running sub-queries and returns Resolved with the candidate's full
domain name. -/
theorem c1_race_cancellation (pre post : List (Nat × Option Str)) (t : Nat) (v : Str)
    (hpre : ∀ p ∈ pre, p.2 = none) :
    raceCancelTime (pre ++ (t, some v) :: post) =
      some (List.foldl Nat.max 0 (pre.map Prod.fst ++ [t])) ∧
    raceJoinResult (pre ++ (t, some v) :: post) = some v :=
  ⟨raceCancelTimeAux_split post t v pre 0 hpre, raceJoinResult_split pre post t v hpre⟩

/-- Witness for C1's amended theorem at a concrete two-resolver race. -/
theorem c1_witness :
    raceCancelTime ([((10 : Nat), (none : Option Str))] ++ (1, some (str "a.b")) :: []) =
      some (List.foldl Nat.max 0
        (List.map Prod.fst [((10 : Nat), (none : Option Str))] ++ [1])) ∧
    raceJoinResult ([((10 : Nat), (none : Option Str))] ++ (1, some (str "a.b")) :: []) =
      some (str "a.b") :=
  c1_race_cancellation [(10, none)] [] 1 (str "a.b") (by decide)

/-- Claim C3, counterexample: construction with a valid resolver and zero
candidate names succeeds instead of failing with a configuration error. -/
theorem c3_counterexample :
    (SubdomainScanner.new [str "1.2.3.4"] [] (str "example.com") 2).isOk = true := by
  rfl

/-- Claim C3 (amended): only an empty parsed resolver pool is rejected at
construction: whenever no resolver line parses, SubdomainScanner::new fails
immediately with the configuration error, before any Job exists; an empty
candidate list is accepted. -/
theorem c3_empty_resolvers_error (rl sl : List Str) (d : Str) (t : Nat)
    (hres : rl.filterMap readResolverLine = []) :
    SubdomainScanner.new rl sl d t = Except.error "No valid resolvers found" := by
  simp [SubdomainScanner.new, hres]

/-- Witness for C3's amended theorem: an empty resolver file is rejected. -/
theorem c3_witness :
    SubdomainScanner.new [] [str "www"] (str "example.com") 2 =
      Except.error "No valid resolvers found" :=
  c3_empty_resolvers_error [] [str "www"] (str "example.com") 2 rfl

/-- Claim C4, counterexample: the permit count of the semaphore guarding
admissions is the hardcoded constant 1000000 for scanners built from entirely
different configurations, so the ceiling is not a value supplied at
construction. -/
theorem c4_counterexample :
    scanPermitLimit (SubdomainScanner.mk [SockAddr.mk [1, 1, 1, 1] 53]
      (str "a.com") [str "www"] 2) = 1000000 ∧
    scanPermitLimit (SubdomainScanner.mk
      [SockAddr.mk [8, 8, 8, 8] 53, SockAddr.mk [9, 9, 9, 9] 5353]
      (str "b.org") [str "mail", str "api"] 7) = 1000000 :=
  ⟨rfl, rfl⟩

/-- Claim C4 (amended): under the semaphore discipline of scan, the number of
outstanding jobs (admitted and not yet completed) in any reachable state never
exceeds the hardcoded permit count 1000000. -/
theorem c4_ceiling_invariant (sc : SubdomainScanner) (st : GovState)
    (h : GovReach (scanPermitLimit sc) st) :
    st.admitted - st.completed ≤ scanPermitLimit sc := by
  induction h with
  | start => simp
  | step s s' hr hstep ih =>
    cases hstep with
    | enter h2 =>
      show s.admitted + 1 - s.completed ≤ scanPermitLimit sc
      omega
    | complete h2 =>
      show s.admitted - (s.completed + 1) ≤ scanPermitLimit sc
      omega

/-- Witness for C4's amended theorem at a concrete reachable state (two jobs
admitted, one completed). -/
theorem c4_witness :
    (GovState.mk 2 1).admitted - (GovState.mk 2 1).completed ≤
      scanPermitLimit (SubdomainScanner.mk [SockAddr.mk [1, 1, 1, 1] 53]
        (str "ex.com") [str "www"] 2) :=
  c4_ceiling_invariant _ _
    (GovReach.step _ _
      (GovReach.step _ _
        (GovReach.step _ _ GovReach.start (GovStep.enter _ (by decide)))
        (GovStep.enter _ (by decide)))
      (GovStep.complete _ (by decide)))

/-- Claim C5, counterexample: with the candidate "www" listed twice, its full
domain appears twice in the resolved sequence, so a candidate's full domain
can appear more than once. -/
theorem c5_counterexample :
    str "www" ∈ (SubdomainScanner.mk [SockAddr.mk [1, 1, 1, 1] 53] (str "ex.com")
      [str "www", str "www"] 2).subdomains ∧
    List.count (str "www.ex.com")
      ((SubdomainScanner.mk [SockAddr.mk [1, 1, 1, 1] 53] (str "ex.com")
        [str "www", str "www"] 2).scanModel (fun l => some [l])
        (fun _ _ _ => DnsResult.ok [Answer.mk 0])).subdomain = 2 := by
  exact ⟨by decide, by decide⟩

/-- Claim C5 (amended): each occurrence of a candidate contributes exactly one
outcome: the multiplicity of a candidate's full domain in the resolved
sequence equals the candidate's input multiplicity when its race is positive
and zero when it is negative (resolved or unresolved, never both, regardless
of how many resolvers answer positively); for a duplicate-free candidate list
each candidate's full domain therefore appears at most once. -/
theorem c5_one_outcome_each (np : Str → Option Name)
    (oracle : SockAddr → Nat → Name → DnsResult) (sc : SubdomainScanner) (s : Str) :
    (List.count (fullDomain s sc.domain) (sc.scanModel np oracle).subdomain =
      if (tryResolvers np oracle sc.resolvers sc.timeout (fullDomain s sc.domain)).isSome
      then List.count s sc.subdomains else 0) ∧
    (sc.subdomains.Nodup →
      List.count (fullDomain s sc.domain) (sc.scanModel np oracle).subdomain ≤ 1) := by
  have hmain := count_scanModel_subdomain np oracle sc.resolvers sc.timeout sc.domain
    sc.subdomains s
  have hfound : (sc.scanModel np oracle).subdomain = sc.subdomains.filterMap
      (fun c => tryResolvers np oracle sc.resolvers sc.timeout (fullDomain c sc.domain)) := rfl
  constructor
  · rw [hfound]
    exact hmain
  · intro hnd
    rw [hfound, hmain]
    by_cases hp : (tryResolvers np oracle sc.resolvers sc.timeout
        (fullDomain s sc.domain)).isSome = true
    · simp only [hp, if_true]
      exact count_le_one_of_nodup hnd s
    · simp [hp]

/-- Witness for C5's amended theorem: the multiplicity equation at the
duplicate-candidate scan itself (the candidate listed twice, so its full
domain is resolved twice), and the at-most-once clause at a duplicate-free
scan. -/
theorem c5_witness :
    (List.count (fullDomain (str "www") (str "ex.com"))
      ((SubdomainScanner.mk [SockAddr.mk [1, 1, 1, 1] 53] (str "ex.com")
        [str "www", str "www"] 2).scanModel (fun l => some [l])
        (fun _ _ _ => DnsResult.ok [Answer.mk 0])).subdomain =
      if (tryResolvers (fun l => some [l]) (fun _ _ _ => DnsResult.ok [Answer.mk 0])
          [SockAddr.mk [1, 1, 1, 1] 53] 2
          (fullDomain (str "www") (str "ex.com"))).isSome
      then List.count (str "www") [str "www", str "www"] else 0) ∧
    List.count (fullDomain (str "www") (str "ex.com"))
      ((SubdomainScanner.mk [SockAddr.mk [1, 1, 1, 1] 53] (str "ex.com")
        [str "www"] 2).scanModel (fun l => some [l])
        (fun _ _ _ => DnsResult.ok [Answer.mk 0])).subdomain ≤ 1 :=
  ⟨(c5_one_outcome_each (fun l => some [l]) (fun _ _ _ => DnsResult.ok [Answer.mk 0])
      (SubdomainScanner.mk [SockAddr.mk [1, 1, 1, 1] 53] (str "ex.com")
        [str "www", str "www"] 2) (str "www")).1,
   (c5_one_outcome_each (fun l => some [l]) (fun _ _ _ => DnsResult.ok [Answer.mk 0])
      (SubdomainScanner.mk [SockAddr.mk [1, 1, 1, 1] 53] (str "ex.com")
        [str "www"] 2) (str "www")).2 (by decide)⟩

/-- Claim C2: the report counts every candidate and resolves at most that many. -/
theorem c2_completeness (np : Str → Option Name)
    (oracle : SockAddr → Nat → Name → DnsResult) (sc : SubdomainScanner) :
    (sc.scanModel np oracle).total_scanned = sc.subdomains.length ∧
    (sc.scanModel np oracle).subdomain.length ≤ sc.subdomains.length :=
  ⟨rfl, List.length_filterMap_le _ _⟩

/-- Claim C6: a sub-query outcome is positive (carries the full domain) exactly
when the spec-side positivity predicate holds — the query succeeded with a
non-empty answer set — and the outcome of a successful query depends on its
answers only through their emptiness. -/
theorem c6_positive_iff (qr : DnsResult) (fd : Str) (a b : List Answer)
    (hab : a.isEmpty = b.isEmpty) :
    subQueryOutcome qr fd = (bif specPositive qr then some fd else none) ∧
    subQueryOutcome (DnsResult.ok a) fd = subQueryOutcome (DnsResult.ok b) fd := by
  constructor
  · cases qr with
    | ok answers =>
      unfold subQueryOutcome specPositive
      by_cases he : answers.isEmpty <;> simp [he]
    | err e => rfl
  · show (if a.isEmpty then none else some fd) = (if b.isEmpty then none else some fd)
    rw [hab]

/-- Witness for C6 at a concrete successful query with answers of different
content but equal non-emptiness. -/
theorem c6_witness :
    (subQueryOutcome (DnsResult.ok [Answer.mk 3]) (str "x.y") =
      (bif specPositive (DnsResult.ok [Answer.mk 3]) then some (str "x.y") else none)) ∧
    subQueryOutcome (DnsResult.ok [Answer.mk 3]) (str "x.y") =
      subQueryOutcome (DnsResult.ok [Answer.mk 7, Answer.mk 8]) (str "x.y") :=
  c6_positive_iff (DnsResult.ok [Answer.mk 3]) (str "x.y") [Answer.mk 3]
    [Answer.mk 7, Answer.mk 8] rfl

/-- Claim C7: when every assigned resolver gives a negative outcome for a
candidate, the race returns Unresolved (None), the candidate's full domain is
absent from the resolved sequence, and the candidate is still counted by
total_scanned. -/
theorem c7_all_negative (np : Str → Option Name)
    (oracle : SockAddr → Nat → Name → DnsResult) (sc : SubdomainScanner) (s : Str)
    (_hmem : s ∈ sc.subdomains)
    (hneg : ∀ r ∈ sc.resolvers, ∀ nm, np (fullDomain s sc.domain ++ ['.']) = some nm →
      subQueryOutcome (oracle r sc.timeout nm) (fullDomain s sc.domain) = none) :
    tryResolvers np oracle sc.resolvers sc.timeout (fullDomain s sc.domain) = none ∧
    fullDomain s sc.domain ∉ (sc.scanModel np oracle).subdomain ∧
    (sc.scanModel np oracle).total_scanned = sc.subdomains.length := by
  have hrace : tryResolvers np oracle sc.resolvers sc.timeout (fullDomain s sc.domain)
      = none := by
    unfold tryResolvers
    cases hnp : np (fullDomain s sc.domain ++ ['.']) with
    | none => rfl
    | some nm =>
      exact List.findSome?_eq_none_iff.mpr (fun r hr => hneg r hr nm hnp)
  exact ⟨hrace, not_mem_scanModel_of_race_none hrace, rfl⟩

/-- Witness for C7: one resolver that always times out leaves the one
candidate unresolved yet counted. -/
theorem c7_witness :
    tryResolvers (fun l => some [l]) (fun _ _ _ => DnsResult.err QueryError.timeout)
      [SockAddr.mk [9, 9, 9, 9] 53] 2 (fullDomain (str "www") (str "ex.com")) = none ∧
    fullDomain (str "www") (str "ex.com") ∉
      ((SubdomainScanner.mk [SockAddr.mk [9, 9, 9, 9] 53] (str "ex.com")
        [str "www"] 2).scanModel (fun l => some [l])
        (fun _ _ _ => DnsResult.err QueryError.timeout)).subdomain ∧
    ((SubdomainScanner.mk [SockAddr.mk [9, 9, 9, 9] 53] (str "ex.com")
      [str "www"] 2).scanModel (fun l => some [l])
      (fun _ _ _ => DnsResult.err QueryError.timeout)).total_scanned =
      [str "www"].length :=
  c7_all_negative (fun l => some [l]) (fun _ _ _ => DnsResult.err QueryError.timeout)
    (SubdomainScanner.mk [SockAddr.mk [9, 9, 9, 9] 53] (str "ex.com") [str "www"] 2)
    (str "www") (by decide) (fun _ _ _ _ => rfl)

/-- Claim C8: every resolver line that loads successfully carries the port the
spec assigns to it — the port written after the colon when the line has one,
the default 53 otherwise. -/
theorem c8_default_port (line : Str) (a : SockAddr)
    (h : readResolverLine line = some a) :
    resolverPortSpec line = some a.port := by
  unfold readResolverLine at h
  unfold resolverPortSpec
  by_cases hc : line.contains ':' = true
  · rw [if_pos hc] at h ⊢
    obtain ⟨hst, prt, hsp, hpt⟩ := parseSocketAddr_port h
    rw [hsp]
    exact hpt
  · rw [if_neg hc] at h ⊢
    obtain ⟨hst, prt, hsp, hpt⟩ := parseSocketAddr_port h
    have hnotmem : ':' ∉ trimChars line := by
      intro hmem
      have hln : ':' ∈ line := mem_of_mem_trimChars hmem
      exact hc (by simpa using hln)
    have hsplit : splitOnChar ':' (trimChars line ++ str ":53") =
        [trimChars line, str "53"] := by
      have h1 : (str ":53") = ':' :: str "53" := rfl
      rw [h1, splitOnChar_append (str "53") hnotmem,
        splitOnChar_of_not_mem (by decide)]
    rw [hsplit] at hsp
    injection hsp with hh ht
    injection ht with h2 h3
    rw [← h2] at hpt
    have h53 : parsePort (str "53") = some 53 := rfl
    rw [h53] at hpt
    injection hpt with h4
    rw [← h4]

/-- Witness for C8 at a portless resolver line, loaded with port 53. -/
theorem c8_witness :
    resolverPortSpec (str "8.8.8.8") = some (SockAddr.mk [8, 8, 8, 8] 53).port :=
  c8_default_port (str "8.8.8.8") (SockAddr.mk [8, 8, 8, 8] 53) (by decide)

/-- Claim C9: when the composed full domain fails to parse as a DNS name, the
race returns Unresolved (None, no error surfaced) before launching any
sub-query, the candidate's full domain is absent from the resolved sequence,
and total_scanned still counts the candidate. -/
theorem c9_unparseable_name (np : Str → Option Name)
    (oracle : SockAddr → Nat → Name → DnsResult) (sc : SubdomainScanner) (s : Str)
    (_hmem : s ∈ sc.subdomains)
    (hbad : np (fullDomain s sc.domain ++ ['.']) = none) :
    tryResolvers np oracle sc.resolvers sc.timeout (fullDomain s sc.domain) = none ∧
    tryResolversQueries np sc.resolvers (fullDomain s sc.domain) = [] ∧
    fullDomain s sc.domain ∉ (sc.scanModel np oracle).subdomain ∧
    (sc.scanModel np oracle).total_scanned = sc.subdomains.length := by
  have hrace : tryResolvers np oracle sc.resolvers sc.timeout (fullDomain s sc.domain)
      = none := by
    unfold tryResolvers
    rw [hbad]
  have hq : tryResolversQueries np sc.resolvers (fullDomain s sc.domain) = [] := by
    unfold tryResolversQueries
    rw [hbad]
  exact ⟨hrace, hq, not_mem_scanModel_of_race_none hrace, rfl⟩

/-- Witness for C9 at a candidate whose composed name the parser rejects. -/
theorem c9_witness :
    tryResolvers (fun _ => none) (fun _ _ _ => DnsResult.ok [Answer.mk 0])
      [SockAddr.mk [1, 1, 1, 1] 53] 2 (fullDomain (str "bad.") (str "ex.com")) = none ∧
    tryResolversQueries (fun _ => none) [SockAddr.mk [1, 1, 1, 1] 53]
      (fullDomain (str "bad.") (str "ex.com")) = [] ∧
    fullDomain (str "bad.") (str "ex.com") ∉
      ((SubdomainScanner.mk [SockAddr.mk [1, 1, 1, 1] 53] (str "ex.com")
        [str "bad."] 2).scanModel (fun _ => none)
        (fun _ _ _ => DnsResult.ok [Answer.mk 0])).subdomain ∧
    ((SubdomainScanner.mk [SockAddr.mk [1, 1, 1, 1] 53] (str "ex.com")
      [str "bad."] 2).scanModel (fun _ => none)
      (fun _ _ _ => DnsResult.ok [Answer.mk 0])).total_scanned =
      [str "bad."].length :=
  c9_unparseable_name (fun _ => none) (fun _ _ _ => DnsResult.ok [Answer.mk 0])
    (SubdomainScanner.mk [SockAddr.mk [1, 1, 1, 1] 53] (str "ex.com") [str "bad."] 2)
    (str "bad.") (by decide) rfl

/-- Claim C10: every entry of the resolved sequence is the composition of some
input candidate with the configured target domain. -/
theorem c10_resolved_shape (np : Str → Option Name)
    (oracle : SockAddr → Nat → Name → DnsResult) (sc : SubdomainScanner) (x : Str)
    (hx : x ∈ (sc.scanModel np oracle).subdomain) :
    x ∈ sc.subdomains.map (fun s => fullDomain s sc.domain) := by
  obtain ⟨c, hc, hrace⟩ := mem_scanModel_subdomain.mp hx
  have hxc : x = fullDomain c sc.domain := tryResolvers_eq_some hrace
  subst hxc
  exact List.mem_map.mpr ⟨c, hc, rfl⟩

/-- Witness for C10 at a concrete resolved entry. -/
theorem c10_witness :
    str "www.ex.com" ∈ [str "www"].map (fun s => fullDomain s (str "ex.com")) :=
  c10_resolved_shape (fun l => some [l]) (fun _ _ _ => DnsResult.ok [Answer.mk 0])
    (SubdomainScanner.mk [SockAddr.mk [1, 1, 1, 1] 53] (str "ex.com") [str "www"] 2)
    (str "www.ex.com") (by decide)
